import Mathlib

/-!
Verification of the opentelegram gateway against its specification.

The development shallowly embeds the parts of the program the claims
concern: response-delivery chunking, the authorization registry and its
durable-configuration bootstrap, the progress-tracked request executor,
the voice and video media pipelines (scratch-file lifecycle and frame
capping), and the Telegram sync bridge (exchange selection, dedup
fingerprints). Strings are modelled as Lean strings, JS numbers as Nat,
fallible external calls as explicit outcome parameters, and side effects
as explicit effect traces or state records.
-/

namespace OpenTelegram


/-! ## Response delivery: chunking

Embeds the delivery code repeated at each handler site:
    const maxLen = 4000;
    if (responseText.length > maxLen) {
        const parts = [];
        for (let i = 0; i < responseText.length; i += maxLen) {
            parts.push(responseText.slice(i, i + maxLen));
        }
        for (const part of parts) { await telegramBot.sendMessage(chatId, part); }
    } else {
        await telegramBot.sendMessage(chatId, responseText);
    }
Text is modelled as a list of UTF-16-style units (chars). -/

/-- The transport chunk limit used at every delivery site. -/
def maxLen : Nat := 4000

/-- The slice loop: repeatedly take a maxLen-sized slice and advance. -/
def chunkLoop : List Char → List (List Char)
  | [] => []
  | c :: cs => ((c :: cs).take maxLen) :: chunkLoop ((c :: cs).drop maxLen)
termination_by l => l.length
decreasing_by
  simp only [List.length_drop, List.length_cons, maxLen]
  omega

/-- The messages sent for a (non-empty) response text: the slice loop when the
text exceeds the limit, otherwise the whole text as a single message. -/
def splitMessage (text : List Char) : List (List Char) :=
  if text.length > maxLen then chunkLoop text else [text]

/-! ## Authorization registry

Embeds the startup allow-set parse (lines 53-56), addUserToEnvAndExit
(lines 65-90) and checkUserAuthorized (lines 94-129).  The .env file is
modelled at line granularity (content = lines joined by a newline);
side effects (replies, the env write, process exit) are an explicit
effect trace. -/

/-- JS String.prototype.trim, modelled directly on the character list
(drop whitespace from both ends); used because the claims evaluate it on
concrete inputs. -/
def jsTrim (s : String) : String :=
  String.mk (((s.data.dropWhile Char.isWhitespace).reverse.dropWhile Char.isWhitespace).reverse)

/-- JS String.prototype.slice(0, n), modelled on the character list. -/
def jsTake (s : String) (n : Nat) : String :=
  String.mk (s.data.take n)

/-- Startup parse of TELEGRAM_ALLOWED_USERS:
split on commas, trim, drop empty ids and the id "0".  An absent or empty
value (falsy in JS) yields the empty allow-set. -/
def parseAllowedUsers (raw : Option String) : List String :=
  match raw with
  | none => []
  | some s =>
      if s = "" then []
      else ((s.splitOn ",").map jsTrim).filter (fun id => !(id == "") && !(id == "0"))

/-- The key prefix matched by the env-var regex ^TELEGRAM_ALLOWED_USERS=.*$ . -/
def allowedKeyText : String := "TELEGRAM_ALLOWED_USERS="

/-- A single line matches the (multiline-anchored) regex iff it starts with
the key prefix; the dot of the regex does not cross line boundaries. -/
def lineIsAllowedKey (l : String) : Bool := allowedKeyText.data.isPrefixOf l.data

/-- String.replace with a non-global regex replaces only the first matching
line, leaving every other line in place. -/
def replaceFirstAllowedLine (userId : String) : List String → List String
  | [] => []
  | l :: ls =>
      if lineIsAllowedKey l then (allowedKeyText ++ userId) :: ls
      else l :: replaceFirstAllowedLine userId ls

/-- The env-file mutation performed by addUserToEnvAndExit: replace the first
TELEGRAM_ALLOWED_USERS line if the regex matches anywhere, otherwise append
the comment line, the new key line and a trailing empty line (the appended
text starts and ends with a newline). -/
def addUserToEnv (envLines : List String) (userId : String) : List String :=
  if envLines.any lineIsAllowedKey then
    replaceFirstAllowedLine userId envLines
  else
    envLines ++ ["# User whitelist - only these user IDs can use the bot",
                 allowedKeyText ++ userId, ""]

/-- An inbound Telegram message, as the authorization check reads it. -/
structure TgMessage where
  fromId : Option Nat
  chatId : Int
  date : Option Nat

/-- JS truthiness of msg.from?.id: present and non-zero. -/
def userIdTruthy : Option Nat → Bool
  | none => false
  | some n => n != 0

/-- An observable side effect of the authorization check. -/
inductive AuthEffect where
  | sendMsg (chatId : Int) (text : String)
  | writeEnv (newLines : List String)
  | exitProcess
deriving DecidableEq

/-- The reply sent to the first user before the bootstrap write. -/
def firstUserNotice (userId : Nat) : String :=
  "You are the first user to message this bot.\n\n" ++
  "Adding you as admin (user ID: " ++ Nat.repr userId ++ ").\n\n" ++
  "The bot will restart now. Please message again in a few seconds."

/-- The machine-parseable rejection reply (an absent id prints as undefined). -/
def unauthorizedNotice (userId : Option Nat) : String :=
  "You are not authorized to use this bot.\n\n" ++
  "Paste this into the chat to allow your user ID to control the machine:\n\n" ++
  "Add user " ++ (match userId with | some u => Nat.repr u | none => "undefined") ++
  " to TELEGRAM_ALLOWED_USERS"

/-- checkUserAuthorized with its side effects made explicit.  allowedUsers and
botStartTime are the process-start constants; envLines is the .env content
addUserToEnvAndExit would read.  Returns the effect trace and the boolean
result; process.exit(0) is the trailing exitProcess effect. -/
def checkUserAuthorized (allowedUsers : List String) (botStartTime : Nat)
    (envLines : List String) (msg : TgMessage) : List AuthEffect × Bool :=
  let userId := msg.fromId
  let msgTime := msg.date.getD 0
  if msgTime < botStartTime then
    ([], false)
  else if allowedUsers.isEmpty && userIdTruthy userId then
    let u := userId.getD 0
    ([AuthEffect.sendMsg msg.chatId (firstUserNotice u),
      AuthEffect.writeEnv (addUserToEnv envLines (Nat.repr u)),
      AuthEffect.exitProcess], false)
  else if userIdTruthy userId && allowedUsers.contains (Nat.repr (userId.getD 0)) then
    ([], true)
  else
    ([AuthEffect.sendMsg msg.chatId (unauthorizedNotice userId)], false)

/-! ## Progress-tracked request executor

Embeds streamWithProgress (lines 173-219).  The initial sendMessage
outcome and the backend prompt outcome are explicit parameters; transport
interactions are recorded in an effect trace.  deleteMessage failures are
swallowed by the source and do not change control flow, so a deletion is
recorded as an attempt effect. -/

/-- Result of the backend prompt call when the transport succeeds: the
in-band error field (if any) and the data payload. -/
structure PromptResult where
  error : Option String
  data : Option String
deriving DecidableEq

/-- An observable transport interaction of streamWithProgress. -/
inductive ExecEffect where
  | sendProgress (chatId : Int) (text : String)
  | promptCall
  | deleteMsg (chatId : Int) (messageId : Nat)
deriving DecidableEq

/-- The signalled failure of streamWithProgress. -/
inductive ExecError where
  | transport (e : String)
  | backend (payload : String)
deriving DecidableEq

/-- The initial progress text: context plus the processing indicator. -/
def progressText (context : String) : String :=
  if context == "" then "⏳ Processing..." else context ++ "\n\n⏳ Processing..."

/-- streamWithProgress.  sendRes is the outcome of the initial progress
sendMessage (message id, or none when it threw — that error is swallowed);
promptRes is the outcome of the backend prompt call: a transport-level
failure, or a result that may carry an in-band error field.  On the in-band
error path the progress message is deleted once on the success-path cleanup
and once more in the catch block (the id is never cleared), hence two
deletion attempts appear in the trace. -/
def streamWithProgress (chatId : Int) (context : String) (sendRes : Option Nat)
    (promptRes : Except String PromptResult) :
    List ExecEffect × Except ExecError (Option String) :=
  let initTrace := [ExecEffect.sendProgress chatId (progressText context)]
  let deleteTrace := match sendRes with
    | some mid => [ExecEffect.deleteMsg chatId mid]
    | none => []
  match promptRes with
  | Except.error e =>
      (initTrace ++ [ExecEffect.promptCall] ++ deleteTrace,
       Except.error (ExecError.transport e))
  | Except.ok result =>
      match result.error with
      | some payload =>
          (initTrace ++ [ExecEffect.promptCall] ++ deleteTrace ++ deleteTrace,
           Except.error (ExecError.backend payload))
      | none =>
          (initTrace ++ [ExecEffect.promptCall] ++ deleteTrace,
           Except.ok result.data)

/-! ## Voice pipeline: scratch-file lifecycle

Embeds the voice handler (lines 650-761) at the granularity the claim
needs: the scratch .ogg file is written only after a successful download,
the only fs.unlinkSync sits immediately after a successful transcription
call, and the surrounding catch block sends an error reply but performs no
file cleanup. -/

/-- One run of the voice handler, after authorization. -/
structure VoiceScenario where
  apiKeyPresent : Bool
  downloadOk : Bool
  transcription : Except String String

/-- Whether the scratch file was persisted during the run: requires the
configured API key (otherwise the handler returns before downloading) and a
successful download (otherwise the throw precedes fs.writeFileSync). -/
def voiceScratchCreated (sc : VoiceScenario) : Bool :=
  sc.apiKeyPresent && sc.downloadOk

/-- Whether the scratch file still exists when the voice handler returns.
fs.unlinkSync executes only on the straight-line path after the
transcription call resolves; a transcription failure jumps to the catch
block, which does not delete the file. -/
def voiceScratchRemains (sc : VoiceScenario) : Bool :=
  if !sc.apiKeyPresent then false
  else if !sc.downloadOk then false
  else
    match sc.transcription with
    | Except.error _ => true
    | Except.ok _ => false

/-! ## Video pipeline: scratch-file lifecycle and frame capping

Embeds the video handler (lines 931-1181) and its cleanup block
(lines 1155-1163), plus the frame selection (lines 1023-1033) and the
content-part construction (lines 1056-1076).  The cleanup block sits at
the end of the try block; the catch block deletes only the progress
message, never scratch files.  The cleanup unlinks the scratch video, then
each of the (at most 5) selected frame files, then removes the frames
directory; any cleanup error is logged and swallowed. -/

/-- Outcome of the ffmpeg frame-extraction subprocess. -/
inductive FfmpegOutcome where
  | ok
  | exitErr (code : Nat) (diagTail : String)
  | timeout
deriving DecidableEq

/-- One run of the video handler, after authorization. -/
structure VideoScenario where
  downloadOk : Bool
  ffmpeg : FfmpegOutcome
  framesProduced : Nat
  backendOk : Bool
deriving DecidableEq

/-- Scratch entities of one video job still on disk when the handler
returns. -/
structure VideoScratch where
  tempVideo : Bool
  framesLeft : Nat
  framesDir : Bool
deriving DecidableEq

/-- Every scratch entity removed. -/
def cleanScratch : VideoScratch := VideoScratch.mk false 0 false

/-- Scratch state after the video handler returns.  A download failure
throws before the scratch video is written; an ffmpeg failure or timeout
throws past the cleanup block; zero produced frames throws as well; a
backend error thrown out of streamWithProgress also skips the cleanup.
Only the straight-line success path reaches the cleanup, which unlinks the
video, unlinks the first (at most) 5 frames, and removes the directory —
the rmdir fails (and is swallowed) when surplus frames remain. -/
def videoScratchAfter (sc : VideoScenario) : VideoScratch :=
  if !sc.downloadOk then cleanScratch
  else
    match sc.ffmpeg with
    | FfmpegOutcome.exitErr _ _ => VideoScratch.mk true sc.framesProduced true
    | FfmpegOutcome.timeout => VideoScratch.mk true sc.framesProduced true
    | FfmpegOutcome.ok =>
        if sc.framesProduced == 0 then VideoScratch.mk true 0 true
        else if !sc.backendOk then VideoScratch.mk true sc.framesProduced true
        else
          VideoScratch.mk false (sc.framesProduced - 5) (decide (5 < sc.framesProduced))

/-! ### Frame selection and content parts -/

/-- A backend-submittable content part, as built by the handlers. -/
inductive ContentPart where
  | text (t : String)
  | file (mime : String) (filename : String)
deriving DecidableEq

/-- The readdir filter: names of the form frame_*.jpg. -/
def frameFilter (f : String) : Bool :=
  "frame_".data.isPrefixOf f.data && ".jpg".data.isSuffixOf f.data

/-- The frame-file selection: filter the directory listing, sort (the JS
default sort compares strings lexicographically), and keep at most the
first 5 entries. -/
def selectFrames (entries : List String) : List String :=
  (List.mergeSort (entries.filter frameFilter)).take 5

/-- The text part: the caption when its trim is non-empty, otherwise the
templated description mentioning frame count and duration. -/
def videoPrompt (caption : String) (frameCount duration : Nat) : String :=
  if jsTrim caption == "" then
    "I\x27ve extracted " ++ Nat.repr frameCount ++ " frames from a " ++ Nat.repr duration ++
      "-second video. Please analyze these frames and describe what you see."
  else caption

/-- The content parts submitted for a video: the text part followed by one
image/jpeg file part per selected frame. -/
def videoParts (caption : String) (entries : List String) (duration : Nat) : List ContentPart :=
  let frames := selectFrames entries
  ContentPart.text (videoPrompt caption frames.length duration) ::
    frames.map (fun f => ContentPart.file "image/jpeg" f)

/-! ## Sync bridge

Embeds the Telegram sync plugin: extractMessageContent (lines 69-78),
getLatestExchange (lines 83-106), postSync (lines 37-52), and the
session.idle event handler (lines 136-207).  Messages, the per-session
topic entry and the dedup fingerprint are explicit values; the outcomes of
the two HTTP posts are explicit parameters. -/

/-- A part of a backend message, as the plugin reads it. -/
inductive MsgPart where
  | text (t : String)
  | other
deriving DecidableEq

/-- A message of the message list of a session. -/
structure SyncMessage where
  role : String
  parts : List MsgPart
  id : String
deriving DecidableEq

instance : Inhabited SyncMessage := ⟨SyncMessage.mk "" [] ""⟩

/-- extractMessageContent: concatenate the text of the text parts, then
trim. -/
def extractMessageContent (m : SyncMessage) : String :=
  jsTrim ((m.parts.filterMap (fun p => match p with
    | MsgPart.text t => some t
    | MsgPart.other => none)).foldl (fun acc t => acc ++ t) "")

/-- The indexed message list in reverse order — the pairs (i, messages[i])
visited by the loop for (i = messages.length - 1; i >= 0; i--). -/
def revIdx : List SyncMessage → List (Nat × SyncMessage)
  | [] => []
  | m :: ms => (revIdx ms).map (fun p => (p.1 + 1, p.2)) ++ [(0, m)]

/-- The loop body of getLatestExchange: remember the index of the last
assistant message the first time one is seen; break at the first user
message found while an assistant index is held. -/
def scanExchange : List (Nat × SyncMessage) → Option Nat → Option (Nat × Nat)
  | [], _ => none
  | (i, m) :: rest, aIdx =>
      let aIdx2 := if m.role == "assistant" && aIdx.isNone then some i else aIdx
      if m.role == "user" && aIdx2.isSome then
        match aIdx2 with
        | some a => some (i, a)
        | none => none
      else
        scanExchange rest aIdx2

/-- getLatestExchange: the (user index, assistant index) pair selected for
posting, or none when the loop ends without both indices set. -/
def getLatestExchange (messages : List SyncMessage) : Option (Nat × Nat) :=
  scanExchange (revIdx messages) none

/-- Follows the claim wording, for comparison with getLatestExchange: after
fixing the last assistant message, accept the nearest earlier user message
only if it is found before any assistant message is seen again while
scanning backwards; otherwise no pair exists. -/
def specFindUser : List (Nat × SyncMessage) → Nat → Option (Nat × Nat)
  | [], _ => none
  | (i, m) :: rest, a =>
      if m.role == "user" then some (i, a)
      else if m.role == "assistant" then none
      else specFindUser rest a

/-- Follows the claim wording: scan from the end for the last assistant
message, then look for the adjacent user message below it. -/
def specScan : List (Nat × SyncMessage) → Option (Nat × Nat)
  | [] => none
  | (i, m) :: rest =>
      if m.role == "assistant" then specFindUser rest i else specScan rest

/-- The selection rule as the claim words it, packaged like getLatestExchange. -/
def specLatestExchange (messages : List SyncMessage) : Option (Nat × Nat) :=
  specScan (revIdx messages)

/-- The greatest index of a message satisfying p, if any. -/
def lastIdxWith (p : SyncMessage → Bool) : List SyncMessage → Option Nat
  | [] => none
  | m :: ms =>
      match lastIdxWith p ms with
      | some i => some (i + 1)
      | none => if p m then some 0 else none

/-- The per-session sync state read by the idle handler: the
syncedSessions entry (absent, or present with an optional topic id) and
the lastPostedContent fingerprint. -/
structure BridgeState where
  topicEntry : Option (Option Nat)
  lastPosted : Option (String × String)
deriving DecidableEq

/-- The topic id usable without creation: an entry must exist and its
topicId must be truthy (present and non-zero). -/
def truthyTopic : Option (Option Nat) → Option Nat
  | some (some t) => if t == 0 then none else some t
  | _ => none

/-- The dedup check: both extracted contents equal the stored
fingerprint. -/
def isDupFingerprint (lastPosted : Option (String × String)) (uc ac : String) : Bool :=
  match lastPosted with
  | some pair => pair.1 == uc && pair.2 == ac
  | none => false

/-- The extracted content of the message at an index. -/
def contentAt (msgs : List SyncMessage) (i : Nat) : String :=
  extractMessageContent (msgs.getD i default)

/-- postSync: the POST helper wraps the whole request in try/catch and
returns null on any failure — it never re-raises. -/
def postSync (outcome : Except String Nat) : Option Nat :=
  match outcome with
  | Except.ok v => some v
  | Except.error _ => none

/-- An HTTP call issued by the idle handler, with its (ignored) result. -/
inductive PostCall where
  | createTopic (title : String) (result : Option Nat)
  | postMessage (topicId : Nat) (userContent assistantContent : String)
      (messageId : String) (result : Option Nat)
deriving DecidableEq

/-- Whether a call posts an exchange to a topic. -/
def isPostMessage : PostCall → Bool
  | PostCall.postMessage _ _ _ _ _ => true
  | _ => false

/-- Environment of one session.idle event: the fetched message list, the
parsed topicId of a create-topic attempt (none models a failed POST or a
response without a topicId), and the raw outcome of the exchange POST
(routed through postSync; the handler never inspects its value). -/
structure IdleEnv where
  messages : List SyncMessage
  topicCreateRes : Option Nat
  postOutcome : Except String Nat

/-- The session.idle handler.  Empty message list: skip.  No exchange:
skip.  Both extracted contents empty: skip.  Fingerprint match: skip
(dedup).  No usable topic: create one (title = first 50 characters of the
user content, or the default label), aborting silently if creation fails;
then post the exchange and record the fingerprint — unconditionally,
whatever the POST outcome. -/
def handleIdle (st : BridgeState) (env : IdleEnv) : BridgeState × List PostCall :=
  if env.messages.isEmpty then (st, [])
  else
    match getLatestExchange env.messages with
    | none => (st, [])
    | some (u, a) =>
        let userContent := contentAt env.messages u
        let assistantContent := contentAt env.messages a
        let messageId := (env.messages.getD a default).id
        if userContent == "" && assistantContent == "" then (st, [])
        else if isDupFingerprint st.lastPosted userContent assistantContent then (st, [])
        else
          match truthyTopic st.topicEntry with
          | some tid =>
              (BridgeState.mk st.topicEntry (some (userContent, assistantContent)),
               [PostCall.postMessage tid userContent assistantContent messageId
                  (postSync env.postOutcome)])
          | none =>
              let title := if jsTake userContent 50 == "" then "OpenCode Session"
                           else jsTake userContent 50
              match env.topicCreateRes with
              | some tid =>
                  if tid == 0 then (st, [PostCall.createTopic title (some tid)])
                  else
                    (BridgeState.mk (some (some tid)) (some (userContent, assistantContent)),
                     [PostCall.createTopic title (some tid),
                      PostCall.postMessage tid userContent assistantContent messageId
                        (postSync env.postOutcome)])
              | none => (st, [PostCall.createTopic title none])

/-- Two consecutive idle events for the same session. -/
def runTwoIdle (st : BridgeState) (e1 e2 : IdleEnv) : BridgeState × List PostCall :=
  let r1 := handleIdle st e1
  let r2 := handleIdle r1.1 e2
  (r2.1, r1.2 ++ r2.2)

/-! ## Theorems -/

theorem chunkLoop_nil : chunkLoop [] = [] := by
  rw [chunkLoop]

theorem chunkLoop_ne_nil (l : List Char) (h : l ≠ []) : chunkLoop l ≠ [] := by
  cases l with
  | nil => exact absurd rfl h
  | cons c cs => rw [chunkLoop]; exact List.cons_ne_nil _ _

theorem chunkLoop_join (l : List Char) : (chunkLoop l).flatten = l := by
  induction l using chunkLoop.induct with
  | case1 => rw [chunkLoop]; rfl
  | case2 c cs ih =>
      rw [chunkLoop, List.flatten_cons, ih, List.take_append_drop]

theorem chunkLoop_length (l : List Char) (h : l ≠ []) :
    (chunkLoop l).length = (l.length + (maxLen - 1)) / maxLen := by
  induction l using chunkLoop.induct with
  | case1 => exact absurd rfl h
  | case2 c cs ih =>
      rw [chunkLoop]
      by_cases hle : (c :: cs).length ≤ maxLen
      · rw [List.drop_eq_nil_of_le hle, chunkLoop_nil]
        simp only [List.length_cons, List.length_nil, maxLen] at hle ⊢
        omega
      · have hd : (c :: cs).drop maxLen ≠ [] := by
          intro hnil
          have := congrArg List.length hnil
          simp only [List.length_drop, List.length_cons, List.length_nil, maxLen] at this hle
          omega
        rw [List.length_cons, ih hd, List.length_drop]
        simp only [List.length_cons, maxLen] at hle ⊢
        omega

theorem chunkLoop_mem_le (l : List Char) : ∀ c ∈ chunkLoop l, c.length ≤ maxLen := by
  induction l using chunkLoop.induct with
  | case1 => rw [chunkLoop_nil]; intro c hc; exact absurd hc (List.not_mem_nil c)
  | case2 c cs ih =>
      rw [chunkLoop]
      intro x hx
      rcases List.mem_cons.mp hx with h | h
      · rw [h]; exact le_trans (le_of_eq (List.length_take _ _)) (min_le_left _ _)
      · exact ih x h

theorem chunkLoop_dropLast (l : List Char) :
    ∀ c ∈ (chunkLoop l).dropLast, c.length = maxLen := by
  induction l using chunkLoop.induct with
  | case1 => rw [chunkLoop_nil]; intro c hc; exact absurd hc (List.not_mem_nil c)
  | case2 c cs ih =>
      rw [chunkLoop]
      by_cases hle : (c :: cs).length ≤ maxLen
      · rw [List.drop_eq_nil_of_le hle, chunkLoop_nil]
        intro x hx
        exact absurd hx (List.not_mem_nil x)
      · have hd : (c :: cs).drop maxLen ≠ [] := by
          intro hnil
          have := congrArg List.length hnil
          simp only [List.length_drop, List.length_cons, List.length_nil, maxLen] at this hle
          omega
        rw [List.dropLast_cons_of_ne_nil (chunkLoop_ne_nil _ hd)]
        intro x hx
        rcases List.mem_cons.mp hx with h | h
        · rw [h, List.length_take]
          simp only [List.length_cons, maxLen] at hle ⊢
          omega
        · exact ih x h

/-- C2: for every non-empty response text of length L, delivery sends
ceil(L/4000) messages, every chunk except possibly the last has length exactly
4000, no chunk exceeds 4000 units, and concatenating the chunks in order
reconstructs the original text. -/
theorem delivery_chunking (text : List Char) (h : text ≠ []) :
    (splitMessage text).length = (text.length + (maxLen - 1)) / maxLen ∧
    (∀ c ∈ splitMessage text, c.length ≤ maxLen) ∧
    (∀ c ∈ (splitMessage text).dropLast, c.length = maxLen) ∧
    (splitMessage text).flatten = text := by
  unfold splitMessage
  by_cases hgt : text.length > maxLen
  · rw [if_pos hgt]
    exact ⟨chunkLoop_length text h, chunkLoop_mem_le text, chunkLoop_dropLast text,
      chunkLoop_join text⟩
  · rw [if_neg hgt]
    have hpos : 0 < text.length := List.length_pos.mpr h
    refine ⟨?_, ?_, ?_, ?_⟩
    · simp only [List.length_cons, List.length_nil, maxLen] at *
      omega
    · intro c hc
      rcases List.mem_singleton.mp hc with rfl
      omega
    · intro c hc
      simp only [List.dropLast_single] at hc
      exact absurd hc (List.not_mem_nil c)
    · simp [List.flatten]

theorem isPrefixOf_append_self (l t : List Char) : l.isPrefixOf (l ++ t) = true := by
  induction l with
  | nil => simp [List.isPrefixOf]
  | cons c cs ih => simp [List.isPrefixOf, ih]

theorem lineIsAllowedKey_append (s : String) :
    lineIsAllowedKey (allowedKeyText ++ s) = true := by
  unfold lineIsAllowedKey
  rw [String.data_append]
  exact isPrefixOf_append_self _ _

theorem replaceFirst_filter_key (userId : String) (ls : List String)
    (hwf : ls.countP lineIsAllowedKey ≤ 1) (hany : ls.any lineIsAllowedKey = true) :
    (replaceFirstAllowedLine userId ls).filter lineIsAllowedKey =
      [allowedKeyText ++ userId] := by
  induction ls with
  | nil => simp at hany
  | cons l ls ih =>
      rw [replaceFirstAllowedLine]
      by_cases hl : lineIsAllowedKey l = true
      · rw [if_pos hl]
        have hz : ls.countP lineIsAllowedKey = 0 := by
          rw [List.countP_cons_of_pos _ _ hl] at hwf
          omega
        have hflt : ls.filter lineIsAllowedKey = [] := by
          rw [List.filter_eq_nil_iff]
          intro a ha
          have := List.countP_eq_zero.mp hz a ha
          simpa using this
        rw [List.filter_cons_of_pos (lineIsAllowedKey_append userId), hflt]
      · rw [if_neg hl]
        have hl' : lineIsAllowedKey l = false := by
          cases h : lineIsAllowedKey l
          · rfl
          · exact absurd h hl
        have hwf' : ls.countP lineIsAllowedKey ≤ 1 := by
          rw [List.countP_cons_of_neg _ _ (by simp [hl'])] at hwf
          exact hwf
        have hany' : ls.any lineIsAllowedKey = true := by
          rw [List.any_cons, hl'] at hany
          simpa using hany
        rw [List.filter_cons_of_neg, ih hwf' hany']
        simp [hl']

theorem replaceFirst_keeps_others (userId : String) (ls : List String) :
    List.Sublist (ls.filter (fun l => !(lineIsAllowedKey l))) (replaceFirstAllowedLine userId ls) := by
  induction ls with
  | nil => simp [replaceFirstAllowedLine]
  | cons l ls ih =>
      rw [replaceFirstAllowedLine]
      by_cases hl : lineIsAllowedKey l = true
      · rw [if_pos hl, List.filter_cons_of_neg (by simp [hl])]
        exact (List.filter_sublist ls).trans (List.sublist_cons_self _ _)
      · have hl' : lineIsAllowedKey l = false := by
          cases h : lineIsAllowedKey l
          · rfl
          · exact absurd h hl
        rw [if_neg hl, List.filter_cons_of_pos (by simp [hl'])]
        exact ih.cons₂ l

/-- C1: with an empty parsed allow-set, the first eligible message carrying a
(non-zero) user id triggers the bootstrap: a notice is sent, the .env content
is rewritten so that the user id is the sole value of the
TELEGRAM_ALLOWED_USERS key (the single existing key line replaced in place if
present, a key line appended otherwise, every other line preserved in order),
and then the process exits, so no further requests are serviced. -/
theorem bootstrap_first_user (raw : Option String) (envLines : List String)
    (botStart : Nat) (msg : TgMessage) (u : Nat)
    (hraw : parseAllowedUsers raw = [])
    (hid : msg.fromId = some u) (hu : u ≠ 0)
    (hdate : botStart ≤ msg.date.getD 0)
    (hwf : envLines.countP lineIsAllowedKey ≤ 1) :
    checkUserAuthorized (parseAllowedUsers raw) botStart envLines msg =
      ([AuthEffect.sendMsg msg.chatId (firstUserNotice u),
        AuthEffect.writeEnv (addUserToEnv envLines (Nat.repr u)),
        AuthEffect.exitProcess], false) ∧
    (addUserToEnv envLines (Nat.repr u)).filter lineIsAllowedKey =
      [allowedKeyText ++ Nat.repr u] ∧
    List.Sublist (envLines.filter (fun l => !(lineIsAllowedKey l))) (addUserToEnv envLines (Nat.repr u)) := by
  refine ⟨?_, ?_, ?_⟩
  · unfold checkUserAuthorized
    rw [hraw, hid]
    have hnotlt : ¬ msg.date.getD 0 < botStart := not_lt.mpr hdate
    rw [if_neg hnotlt, if_pos]
    · rfl
    · simp [userIdTruthy, hu]
  · unfold addUserToEnv
    by_cases hany : envLines.any lineIsAllowedKey = true
    · rw [if_pos hany]
      exact replaceFirst_filter_key _ _ hwf hany
    · rw [if_neg hany]
      have hflt : envLines.filter lineIsAllowedKey = [] := by
        rw [List.filter_eq_nil_iff]
        intro a ha hka
        exact hany (List.any_eq_true.mpr ⟨a, ha, hka⟩)
      rw [List.filter_append, hflt]
      rw [List.filter_cons_of_neg (by decide),
          List.filter_cons_of_pos (lineIsAllowedKey_append _),
          List.filter_cons_of_neg (by decide)]
      rfl
  · unfold addUserToEnv
    by_cases hany : envLines.any lineIsAllowedKey = true
    · rw [if_pos hany]
      exact replaceFirst_keeps_others _ _
    · rw [if_neg hany]
      exact (List.filter_sublist envLines).trans (List.sublist_append_left _ _)

theorem bootstrap_first_user_witness :
    parseAllowedUsers none = [] ∧
    (TgMessage.mk (some 7) 9 (some 100)).fromId = some 7 ∧ (7 : Nat) ≠ 0 ∧
    (50 : Nat) ≤ (TgMessage.mk (some 7) 9 (some 100)).date.getD 0 ∧
    (["FOO=1"] : List String).countP lineIsAllowedKey ≤ 1 ∧
    (checkUserAuthorized (parseAllowedUsers none) 50 ["FOO=1"]
        (TgMessage.mk (some 7) 9 (some 100)) =
      ([AuthEffect.sendMsg 9 (firstUserNotice 7),
        AuthEffect.writeEnv (addUserToEnv ["FOO=1"] (Nat.repr 7)),
        AuthEffect.exitProcess], false) ∧
     (addUserToEnv ["FOO=1"] (Nat.repr 7)).filter lineIsAllowedKey =
       [allowedKeyText ++ Nat.repr 7] ∧
     List.Sublist ((["FOO=1"] : List String).filter (fun l => !(lineIsAllowedKey l)))
       (addUserToEnv ["FOO=1"] (Nat.repr 7))) :=
  ⟨by decide, rfl, by decide, by decide, by decide,
   bootstrap_first_user none ["FOO=1"] 50 (TgMessage.mk (some 7) 9 (some 100)) 7
     (by decide) rfl (by decide) (by decide) (by decide)⟩

/-- C6: a message whose timestamp is strictly before process start is dropped
with no side effect at all — no reply, no env write, no exit — regardless of
the allow-set contents or the sender. -/
theorem stale_message_dropped (allowedUsers : List String) (botStart : Nat)
    (envLines : List String) (msg : TgMessage)
    (h : msg.date.getD 0 < botStart) :
    checkUserAuthorized allowedUsers botStart envLines msg = ([], false) := by
  unfold checkUserAuthorized
  rw [if_pos h]

theorem stale_message_dropped_witness :
    (TgMessage.mk (some 7) 9 (some 10)).date.getD 0 < 50 ∧
    checkUserAuthorized ["7"] 50 [] (TgMessage.mk (some 7) 9 (some 10)) = ([], false) :=
  ⟨by decide, stale_message_dropped ["7"] 50 [] (TgMessage.mk (some 7) 9 (some 10)) (by decide)⟩

/-- C3: whenever the initial progress message was successfully created, a
deletion of that exact message appears in the trace on every exit path —
successful response, transport-level prompt failure, and backend in-band
error (which is re-signalled carrying the backend error payload).  The
progress handle is never left undeleted. -/
theorem streamWithProgress_cleanup (chatId : Int) (context : String) (mid : Nat)
    (promptRes : Except String PromptResult) :
    ExecEffect.deleteMsg chatId mid ∈
      (streamWithProgress chatId context (some mid) promptRes).1 ∧
    (∀ e, promptRes = Except.error e →
      (streamWithProgress chatId context (some mid) promptRes).2 =
        Except.error (ExecError.transport e)) ∧
    (∀ r p, promptRes = Except.ok r → r.error = some p →
      (streamWithProgress chatId context (some mid) promptRes).2 =
        Except.error (ExecError.backend p)) ∧
    (∀ r, promptRes = Except.ok r → r.error = none →
      (streamWithProgress chatId context (some mid) promptRes).2 =
        Except.ok r.data) := by
  unfold streamWithProgress
  match promptRes with
  | Except.error e =>
      refine ⟨by simp, by intro e2 he; simp_all, by intro r p hr; simp_all, by intro r hr; simp_all⟩
  | Except.ok r =>
      match hre : r.error with
      | some p =>
          refine ⟨by simp [hre], by intro e2 he; simp_all, ?_, by intro r2 hr h2; simp_all⟩
          intro r2 p2 hr hp
          cases hr
          simp_all
      | none =>
          refine ⟨by simp [hre], by intro e2 he; simp_all, ?_, ?_⟩
          · intro r2 p2 hr hp
            cases hr
            simp_all
          · intro r2 hr
            cases hr
            simp [hre]

/-- C5 counterexample: a run that persists the scratch file and then fails
the transcription call leaves the scratch file on disk when the handler
returns, so the file is not always deleted. -/
theorem voice_scratch_counterexample :
    voiceScratchCreated (VoiceScenario.mk true true (Except.error "whisper 500")) = true ∧
    voiceScratchRemains (VoiceScenario.mk true true (Except.error "whisper 500")) = true := by
  exact ⟨rfl, rfl⟩

/-- C5 amended: for every run that persisted the scratch file, the file is
deleted before the handler returns exactly when the transcription call
succeeds; on a transcription failure the scratch file remains (the catch
block performs no cleanup). -/
theorem voice_scratch_deleted_iff (sc : VoiceScenario)
    (hc : voiceScratchCreated sc = true) :
    voiceScratchRemains sc = false ↔ (∃ t, sc.transcription = Except.ok t) := by
  unfold voiceScratchCreated at hc
  unfold voiceScratchRemains
  rw [Bool.and_eq_true] at hc
  rw [hc.1, hc.2]
  cases htr : sc.transcription with
  | error e => simp [htr]
  | ok t => simp [htr]

theorem voice_scratch_deleted_iff_witness :
    voiceScratchCreated (VoiceScenario.mk true true (Except.ok "hello")) = true ∧
    (voiceScratchRemains (VoiceScenario.mk true true (Except.ok "hello")) = false ↔
      (∃ t, (VoiceScenario.mk true true (Except.ok "hello")).transcription = Except.ok t)) :=
  ⟨by decide, voice_scratch_deleted_iff (VoiceScenario.mk true true (Except.ok "hello")) (by decide)⟩

/-- C4 counterexample: when ffmpeg exits non-zero, the handler jumps to the
catch block and the scratch video file and frames directory survive the
handler, so cleanup does not happen on every failure path. -/
theorem video_scratch_counterexample :
    videoScratchAfter (VideoScenario.mk true (FfmpegOutcome.exitErr 1 "") 0 true) =
      VideoScratch.mk true 0 true ∧
    videoScratchAfter (VideoScenario.mk true (FfmpegOutcome.exitErr 1 "") 0 true) ≠
      cleanScratch := by
  exact ⟨rfl, by decide⟩

/-- C4 amended: all scratch entities of a video job are removed by the time
the handler returns exactly when either the download failed (so nothing was
ever written) or the whole pipeline succeeded — ffmpeg exited zero, between
1 and 5 frames were produced, and the backend call resolved.  On every other
path (ffmpeg failure or timeout, zero frames, backend error) the scratch
video and frames directory survive, and on a success with more than 5
frames the surplus frames and the directory survive (the rmdir error is
swallowed). -/
theorem video_scratch_clean_iff (sc : VideoScenario) :
    videoScratchAfter sc = cleanScratch ↔
      (sc.downloadOk = false ∨
       (sc.ffmpeg = FfmpegOutcome.ok ∧ 1 ≤ sc.framesProduced ∧
        sc.framesProduced ≤ 5 ∧ sc.backendOk = true)) := by
  obtain ⟨d, f, n, b⟩ := sc
  cases d with
  | false => simp [videoScratchAfter, cleanScratch]
  | true =>
      cases f with
      | exitErr c t => simp [videoScratchAfter, cleanScratch]
      | timeout => simp [videoScratchAfter, cleanScratch]
      | ok =>
          by_cases h0 : n = 0
          · cases b <;> simp [videoScratchAfter, cleanScratch, h0]
          · cases b with
            | false => simp [videoScratchAfter, cleanScratch, h0]
            | true =>
                simp [videoScratchAfter, cleanScratch, h0, VideoScratch.mk.injEq,
                  Nat.sub_eq_zero_iff_le, decide_eq_false_iff_not]
                omega

/-- C9: the submission contains at most 5 frames — exactly the first (at
most) 5 of the matching frame files in sorted filename order; every selected
frame comes from the directory listing and matches the frame pattern, and
every frame dropped by the cap sorts no earlier than every selected frame
(the selected frames are the earliest). -/
theorem video_frames_capped (entries : List String) (caption : String) (duration : Nat) :
    (selectFrames entries).length ≤ 5 ∧
    videoParts caption entries duration =
      ContentPart.text (videoPrompt caption (selectFrames entries).length duration) ::
        (selectFrames entries).map (fun f => ContentPart.file "image/jpeg" f) ∧
    (∀ f ∈ selectFrames entries, f ∈ entries ∧ frameFilter f = true) ∧
    (∀ f ∈ selectFrames entries,
      ∀ g ∈ (List.mergeSort (entries.filter frameFilter)).drop 5, f ≤ g) := by
  refine ⟨?_, rfl, ?_, ?_⟩
  · unfold selectFrames
    rw [List.length_take]
    exact min_le_left _ _
  · intro f hf
    unfold selectFrames at hf
    have hmem : f ∈ List.mergeSort (entries.filter frameFilter) :=
      List.mem_of_mem_take hf
    have hmem2 : f ∈ entries.filter frameFilter := List.mem_mergeSort.mp hmem
    exact ⟨List.mem_of_mem_filter hmem2, List.of_mem_filter hmem2⟩
  · intro f hf g hg
    have hsorted : (List.mergeSort (entries.filter frameFilter)).Pairwise
        (fun a b : String => a ≤ b) := by
      have := @List.sorted_mergeSort String (fun a b : String => decide (a ≤ b))
        (fun a b c hab hbc => by
          simp only [decide_eq_true_eq] at *
          exact le_trans hab hbc)
        (fun a b => by
          simp only [Bool.or_eq_true, decide_eq_true_eq]
          exact le_total a b)
        (entries.filter frameFilter)
      exact List.Pairwise.imp (fun h => by simpa using h) this
    have hsplit := hsorted
    rw [← List.take_append_drop 5
      (List.mergeSort (entries.filter frameFilter) (fun a b => decide (a ≤ b)))] at hsplit
    unfold selectFrames at hf
    exact (List.pairwise_append.mp hsplit).2.2 f hf g hg

theorem revIdx_append_singleton (ms : List SyncMessage) (m : SyncMessage) :
    revIdx (ms ++ [m]) = (ms.length, m) :: revIdx ms := by
  induction ms with
  | nil => rfl
  | cons x ms ih =>
      show revIdx (x :: (ms ++ [m])) = _
      rw [revIdx, ih]
      simp [revIdx]

theorem scanExchange_some (l : List (Nat × SyncMessage)) (a : Nat) :
    scanExchange l (some a) =
      match l.find? (fun q => q.2.role == "user") with
      | some q => some (q.1, a)
      | none => none := by
  induction l with
  | nil => rfl
  | cons p rest ih =>
      obtain ⟨i, m⟩ := p
      rw [scanExchange]
      simp only [Option.isNone_some, Bool.and_false, Bool.false_eq_true, if_false,
        Option.isSome_some, Bool.and_true]
      by_cases hu : (m.role == "user") = true
      · rw [if_pos hu]
        simp [List.find?, hu]
      · have hf : (m.role == "user") = false := by simpa using hu
        rw [if_neg hu, ih]
        simp [List.find?, hf]

theorem lastIdxWith_append_singleton (p : SyncMessage → Bool) (ms : List SyncMessage)
    (m : SyncMessage) :
    lastIdxWith p (ms ++ [m]) =
      if p m then some ms.length else lastIdxWith p ms := by
  induction ms with
  | nil =>
      show lastIdxWith p [m] = _
      simp [lastIdxWith]
  | cons x ms ih =>
      show lastIdxWith p (x :: (ms ++ [m])) = _
      rw [lastIdxWith, ih]
      by_cases hm : p m = true
      · rw [if_pos hm, if_pos hm]
        rfl
      · rw [if_neg hm, if_neg hm]
        rfl

theorem lastIdxWith_lt_length (p : SyncMessage → Bool) (ms : List SyncMessage) (i : Nat)
    (h : lastIdxWith p ms = some i) : i < ms.length := by
  induction ms generalizing i with
  | nil => exact absurd h (by rw [lastIdxWith]; exact Option.noConfusion)
  | cons x ms ih =>
      rw [lastIdxWith] at h
      cases hrec : lastIdxWith p ms with
      | some j =>
          rw [hrec] at h
          cases h
          exact Nat.succ_lt_succ (ih j hrec)
      | none =>
          rw [hrec] at h
          by_cases hx : p x = true
          · rw [if_pos hx] at h
            cases h
            exact Nat.succ_pos _
          · rw [if_neg hx] at h
            exact absurd h Option.noConfusion

theorem find?_revIdx_eq_lastIdxWith (p : SyncMessage → Bool) (ms : List SyncMessage) :
    (match (revIdx ms).find? (fun q => p q.2) with
      | some q => some q.1
      | none => (none : Option Nat)) = lastIdxWith p ms := by
  induction ms using List.reverseRecOn with
  | nil => rfl
  | append_singleton ms m ih =>
      rw [revIdx_append_singleton, lastIdxWith_append_singleton]
      by_cases hm : p m = true
      · rw [if_pos hm]
        simp [List.find?, hm]
      · have hf : p m = false := by simpa using hm
        rw [if_neg hm, ← ih]
        simp [List.find?, hf]

/-- C8 amended: the exchange selected by getLatestExchange is the last
assistant message paired with the nearest earlier user message — the
greatest user index strictly below the last assistant index — regardless
of any assistant messages lying between the two; the event is skipped
(none) exactly when there is no assistant message or no user message below
the last assistant one.  (The idle handler posts nothing when the
selection is none.) -/
theorem getLatestExchange_characterization (ms : List SyncMessage) :
    getLatestExchange ms =
      (match lastIdxWith (fun m => m.role == "assistant") ms with
        | none => none
        | some a =>
            match lastIdxWith (fun m => m.role == "user") (ms.take a) with
            | none => none
            | some u => some (u, a)) ∧
    (∀ st env, env.messages = ms → getLatestExchange ms = none →
      handleIdle st env = (st, [])) := by
  constructor
  · induction ms using List.reverseRecOn with
    | nil => rfl
    | append_singleton ms m ih =>
        unfold getLatestExchange
        rw [revIdx_append_singleton, scanExchange]
        simp only [Option.isNone_none, Bool.and_true]
        by_cases ha : (m.role == "assistant") = true
        · rw [if_pos ha]
          have hu : (m.role == "user") = false := by
            have := beq_iff_eq.mp ha
            simp [this]
          rw [hu]
          simp only [Bool.false_and, Bool.false_eq_true, if_false]
          rw [scanExchange_some, lastIdxWith_append_singleton, if_pos ha]
          show _ = match lastIdxWith (fun m => m.role == "user")
              (List.take ms.length (ms ++ [m])) with
            | none => none
            | some u => some (u, ms.length)
          rw [List.take_left]
          rw [← find?_revIdx_eq_lastIdxWith (fun x => x.role == "user") ms]
          cases hf : (revIdx ms).find? (fun q => q.2.role == "user") with
          | some q => rfl
          | none => rfl
        · simp only [if_neg ha, Option.isSome_none, Bool.and_false, Bool.false_eq_true,
            if_false]
          rw [lastIdxWith_append_singleton, if_neg ha]
          have hfold : scanExchange (revIdx ms) none = getLatestExchange ms := rfl
          cases hla : lastIdxWith (fun m => m.role == "assistant") ms with
          | none =>
              rw [hfold, ih, hla]
          | some a =>
              have hlt : a < ms.length :=
                lastIdxWith_lt_length _ _ _ hla
              rw [hfold, ih, hla]
              show (match lastIdxWith (fun m => m.role == "user") (List.take a ms) with
                | none => none
                | some u => some (u, a)) =
                match lastIdxWith (fun m => m.role == "user") (List.take a (ms ++ [m])) with
                | none => none
                | some u => some (u, a)
              rw [List.take_append_of_le_length (Nat.le_of_lt hlt)]
  · intro st env hm hnone
    unfold handleIdle
    by_cases hemp : env.messages.isEmpty = true
    · rw [if_pos hemp]
    · rw [if_neg hemp, hm, hnone]

/-- C8 counterexample: for a conversation reading [user, assistant,
assistant], the claimed rule finds no pair (an assistant message intervenes
between the last assistant message and the nearest earlier user message),
but the code pairs the last assistant message with that user message and
does not skip. -/
theorem getLatestExchange_counterexample :
    getLatestExchange
        [SyncMessage.mk "user" [MsgPart.text "hi"] "m1",
         SyncMessage.mk "assistant" [MsgPart.text "a"] "m2",
         SyncMessage.mk "assistant" [MsgPart.text "b"] "m3"] = some (0, 2) ∧
    specLatestExchange
        [SyncMessage.mk "user" [MsgPart.text "hi"] "m1",
         SyncMessage.mk "assistant" [MsgPart.text "a"] "m2",
         SyncMessage.mk "assistant" [MsgPart.text "b"] "m3"] = none := by
  exact ⟨by decide, by decide⟩

theorem truthyTopic_eq_some (e : Option (Option Nat)) (t : Nat)
    (h : truthyTopic e = some t) : e = some (some t) := by
  match e with
  | none => exact absurd h (by simp [truthyTopic])
  | some none => exact absurd h (by simp [truthyTopic])
  | some (some x) =>
      by_cases hx : (x == 0) = true
      · exact absurd h (by simp [truthyTopic, hx])
      · have hxt : x = t := by
          have h2 : some x = some t := by simpa [truthyTopic, hx] using h
          exact Option.some.inj h2
        rw [hxt]

theorem handleIdle_dup_skip (st : BridgeState) (env : IdleEnv) (u a : Nat)
    (hemp : env.messages.isEmpty = false)
    (hge : getLatestExchange env.messages = some (u, a))
    (hdup : isDupFingerprint st.lastPosted (contentAt env.messages u)
      (contentAt env.messages a) = true) :
    handleIdle st env = (st, []) := by
  by_cases hboth : (contentAt env.messages u == "" && contentAt env.messages a == "") = true
  · simp [handleIdle, hemp, hge, hboth]
  · simp [handleIdle, hemp, hge, hboth, hdup]

theorem handleIdle_cases (st : BridgeState) (env : IdleEnv) :
    ((handleIdle st env).1 = st ∧ (handleIdle st env).2.countP isPostMessage = 0) ∨
    (∃ u a tid,
      env.messages.isEmpty = false ∧
      getLatestExchange env.messages = some (u, a) ∧
      (contentAt env.messages u == "" && contentAt env.messages a == "") = false ∧
      isDupFingerprint st.lastPosted (contentAt env.messages u) (contentAt env.messages a)
        = false ∧
      (handleIdle st env).1 =
        BridgeState.mk (some (some tid))
          (some (contentAt env.messages u, contentAt env.messages a)) ∧
      (handleIdle st env).2.countP isPostMessage = 1) := by
  by_cases hemp : env.messages.isEmpty = true
  · left
    simp [handleIdle, hemp]
  · cases hge : getLatestExchange env.messages with
    | none => left; simp [handleIdle, hemp, hge]
    | some p =>
        obtain ⟨u, a⟩ := p
        by_cases hboth :
            (contentAt env.messages u == "" && contentAt env.messages a == "") = true
        · left
          simp [handleIdle, hemp, hge, hboth]
        · by_cases hdup : isDupFingerprint st.lastPosted (contentAt env.messages u)
              (contentAt env.messages a) = true
          · left
            simp [handleIdle, hemp, hge, hboth, hdup]
          · cases htt : truthyTopic st.topicEntry with
            | some tid =>
                right
                have hentry : st.topicEntry = some (some tid) :=
                  truthyTopic_eq_some _ _ htt
                have htt2 : truthyTopic (some (some tid)) = some tid := by
                  rw [← hentry]
                  exact htt
                refine ⟨u, a, tid, by simpa using hemp, rfl, by simpa using hboth,
                  by simpa using hdup, ?_, ?_⟩
                · simp [handleIdle, hemp, hge, hboth, hdup, hentry, htt2]
                · simp [handleIdle, hemp, hge, hboth, hdup, hentry, htt2, isPostMessage,
                    List.countP_cons, List.countP_nil]
            | none =>
                cases htc : env.topicCreateRes with
                | none =>
                    left
                    simp [handleIdle, hemp, hge, hboth, hdup, htt, htc, isPostMessage,
                      List.countP_cons, List.countP_nil]
                | some tid =>
                    by_cases h0 : (tid == 0) = true
                    · left
                      simp [handleIdle, hemp, hge, hboth, hdup, htt, htc, h0, isPostMessage,
                        List.countP_cons, List.countP_nil]
                    · right
                      refine ⟨u, a, tid, by simpa using hemp, rfl, by simpa using hboth,
                        by simpa using hdup, ?_, ?_⟩
                      · simp [handleIdle, hemp, hge, hboth, hdup, htt, htc, h0]
                      · simp [handleIdle, hemp, hge, hboth, hdup, htt, htc, h0, isPostMessage,
                          List.countP_cons, List.countP_nil]

/-- C7 counterexample: two consecutive idle events over a conversation whose
latest exchange extracts to the identical pair of empty strings produce zero
topic posts, not exactly one: both events return at the empty-content check,
so no post at all is made. -/
theorem sync_dedup_counterexample :
    getLatestExchange
        [SyncMessage.mk "user" [] "u1", SyncMessage.mk "assistant" [] "a1"] = some (0, 1) ∧
    contentAt [SyncMessage.mk "user" [] "u1", SyncMessage.mk "assistant" [] "a1"] 0 = "" ∧
    contentAt [SyncMessage.mk "user" [] "u1", SyncMessage.mk "assistant" [] "a1"] 1 = "" ∧
    (runTwoIdle (BridgeState.mk none none)
        (IdleEnv.mk [SyncMessage.mk "user" [] "u1", SyncMessage.mk "assistant" [] "a1"]
          (some 1) (Except.ok 0))
        (IdleEnv.mk [SyncMessage.mk "user" [] "u1", SyncMessage.mk "assistant" [] "a1"]
          (some 1) (Except.ok 0))).2.countP isPostMessage = 0 := by
  exact ⟨by decide, by decide, by decide, by decide⟩

/-- C7 amended: if the first of two consecutive idle events over the same
message list performs a topic post (which requires a non-empty extracted
pair, a fresh fingerprint and an available topic), then the second event
performs no post — the fingerprint recorded by the first event makes the
identical pair a duplicate — and the two events together produce exactly
one post. -/
theorem sync_dedup (st : BridgeState) (e1 e2 : IdleEnv)
    (hmsgs : e2.messages = e1.messages)
    (hpost : (handleIdle st e1).2.countP isPostMessage = 1) :
    (handleIdle (handleIdle st e1).1 e2).2.countP isPostMessage = 0 ∧
    (runTwoIdle st e1 e2).2.countP isPostMessage = 1 := by
  rcases handleIdle_cases st e1 with ⟨_, hcnt⟩ |
    ⟨u, a, tid, hemp, hge, hboth, hdup, hst1, hcnt⟩
  · rw [hcnt] at hpost
    exact absurd hpost (by decide)
  · have hskip : handleIdle (handleIdle st e1).1 e2 = ((handleIdle st e1).1, []) := by
      apply handleIdle_dup_skip _ _ u a
      · rw [hmsgs]; exact hemp
      · rw [hmsgs]; exact hge
      · rw [hmsgs, hst1]
        simp [isDupFingerprint]
    refine ⟨by rw [hskip]; rfl, ?_⟩
    unfold runTwoIdle
    simp only [hskip, List.countP_append, hcnt, List.countP_nil]

theorem sync_dedup_witness :
    (IdleEnv.mk [SyncMessage.mk "user" [MsgPart.text "hi"] "u1",
        SyncMessage.mk "assistant" [MsgPart.text "yo"] "a1"] (some 3)
        (Except.ok 5)).messages =
      (IdleEnv.mk [SyncMessage.mk "user" [MsgPart.text "hi"] "u1",
        SyncMessage.mk "assistant" [MsgPart.text "yo"] "a1"] (some 3)
        (Except.ok 5)).messages ∧
    (handleIdle (BridgeState.mk none none)
        (IdleEnv.mk [SyncMessage.mk "user" [MsgPart.text "hi"] "u1",
          SyncMessage.mk "assistant" [MsgPart.text "yo"] "a1"] (some 3)
          (Except.ok 5))).2.countP isPostMessage = 1 ∧
    ((handleIdle (handleIdle (BridgeState.mk none none)
          (IdleEnv.mk [SyncMessage.mk "user" [MsgPart.text "hi"] "u1",
            SyncMessage.mk "assistant" [MsgPart.text "yo"] "a1"] (some 3)
            (Except.ok 5))).1
        (IdleEnv.mk [SyncMessage.mk "user" [MsgPart.text "hi"] "u1",
          SyncMessage.mk "assistant" [MsgPart.text "yo"] "a1"] (some 3)
          (Except.ok 5))).2.countP isPostMessage = 0 ∧
     (runTwoIdle (BridgeState.mk none none)
        (IdleEnv.mk [SyncMessage.mk "user" [MsgPart.text "hi"] "u1",
          SyncMessage.mk "assistant" [MsgPart.text "yo"] "a1"] (some 3)
          (Except.ok 5))
        (IdleEnv.mk [SyncMessage.mk "user" [MsgPart.text "hi"] "u1",
          SyncMessage.mk "assistant" [MsgPart.text "yo"] "a1"] (some 3)
          (Except.ok 5))).2.countP isPostMessage = 1) :=
  ⟨rfl, by decide,
   sync_dedup (BridgeState.mk none none)
     (IdleEnv.mk [SyncMessage.mk "user" [MsgPart.text "hi"] "u1",
       SyncMessage.mk "assistant" [MsgPart.text "yo"] "a1"] (some 3) (Except.ok 5))
     (IdleEnv.mk [SyncMessage.mk "user" [MsgPart.text "hi"] "u1",
       SyncMessage.mk "assistant" [MsgPart.text "yo"] "a1"] (some 3) (Except.ok 5))
     rfl (by decide)⟩

/-- C10: when an idle event reaches the posting step, the per-conversation
fingerprint is set to the attempted pair whatever the outcome of the HTTP
post — postSync catches any failure and returns null, never re-raising —
and a subsequent idle event over the same message list skips the exchange
as a duplicate, so a failed post is never retried. -/
theorem sync_failed_post_never_retried (st : BridgeState) (env env2 : IdleEnv)
    (hpost : (handleIdle st env).2.countP isPostMessage = 1)
    (hmsgs : env2.messages = env.messages) :
    (∀ e, postSync (Except.error e) = none) ∧
    (∃ u a, getLatestExchange env.messages = some (u, a) ∧
      (handleIdle st env).1.lastPosted =
        some (contentAt env.messages u, contentAt env.messages a)) ∧
    handleIdle (handleIdle st env).1 env2 = ((handleIdle st env).1, []) := by
  rcases handleIdle_cases st env with ⟨_, hcnt⟩ |
    ⟨u, a, tid, hemp, hge, hboth, hdup, hst1, hcnt⟩
  · rw [hcnt] at hpost
    exact absurd hpost (by decide)
  · refine ⟨fun e => rfl, ⟨u, a, hge, by rw [hst1]⟩, ?_⟩
    apply handleIdle_dup_skip _ _ u a
    · rw [hmsgs]; exact hemp
    · rw [hmsgs]; exact hge
    · rw [hmsgs, hst1]
      simp [isDupFingerprint]

theorem sync_failed_post_never_retried_witness :
    (handleIdle (BridgeState.mk (some (some 9)) none)
        (IdleEnv.mk [SyncMessage.mk "user" [MsgPart.text "q"] "u1",
          SyncMessage.mk "assistant" [MsgPart.text "r"] "a1"] none
          (Except.error "http 500"))).2.countP isPostMessage = 1 ∧
    (IdleEnv.mk [SyncMessage.mk "user" [MsgPart.text "q"] "u1",
        SyncMessage.mk "assistant" [MsgPart.text "r"] "a1"] none
        (Except.error "http 500")).messages =
      (IdleEnv.mk [SyncMessage.mk "user" [MsgPart.text "q"] "u1",
        SyncMessage.mk "assistant" [MsgPart.text "r"] "a1"] none
        (Except.error "http 500")).messages ∧
    ((∀ e, postSync (Except.error e) = none) ∧
     (∃ u a, getLatestExchange
          (IdleEnv.mk [SyncMessage.mk "user" [MsgPart.text "q"] "u1",
            SyncMessage.mk "assistant" [MsgPart.text "r"] "a1"] none
            (Except.error "http 500")).messages = some (u, a) ∧
        (handleIdle (BridgeState.mk (some (some 9)) none)
            (IdleEnv.mk [SyncMessage.mk "user" [MsgPart.text "q"] "u1",
              SyncMessage.mk "assistant" [MsgPart.text "r"] "a1"] none
              (Except.error "http 500"))).1.lastPosted =
          some (contentAt (IdleEnv.mk [SyncMessage.mk "user" [MsgPart.text "q"] "u1",
              SyncMessage.mk "assistant" [MsgPart.text "r"] "a1"] none
              (Except.error "http 500")).messages u,
            contentAt (IdleEnv.mk [SyncMessage.mk "user" [MsgPart.text "q"] "u1",
              SyncMessage.mk "assistant" [MsgPart.text "r"] "a1"] none
              (Except.error "http 500")).messages a)) ∧
     handleIdle (handleIdle (BridgeState.mk (some (some 9)) none)
          (IdleEnv.mk [SyncMessage.mk "user" [MsgPart.text "q"] "u1",
            SyncMessage.mk "assistant" [MsgPart.text "r"] "a1"] none
            (Except.error "http 500"))).1
        (IdleEnv.mk [SyncMessage.mk "user" [MsgPart.text "q"] "u1",
          SyncMessage.mk "assistant" [MsgPart.text "r"] "a1"] none
          (Except.error "http 500")) =
      ((handleIdle (BridgeState.mk (some (some 9)) none)
          (IdleEnv.mk [SyncMessage.mk "user" [MsgPart.text "q"] "u1",
            SyncMessage.mk "assistant" [MsgPart.text "r"] "a1"] none
            (Except.error "http 500"))).1, [])) :=
  ⟨by decide, rfl,
   sync_failed_post_never_retried (BridgeState.mk (some (some 9)) none)
     (IdleEnv.mk [SyncMessage.mk "user" [MsgPart.text "q"] "u1",
       SyncMessage.mk "assistant" [MsgPart.text "r"] "a1"] none (Except.error "http 500"))
     (IdleEnv.mk [SyncMessage.mk "user" [MsgPart.text "q"] "u1",
       SyncMessage.mk "assistant" [MsgPart.text "r"] "a1"] none (Except.error "http 500"))
     (by decide) rfl⟩

theorem delivery_chunking_witness :
    (['h', 'i'] : List Char) ≠ [] ∧
    ((splitMessage ['h', 'i']).length = ((['h', 'i'] : List Char).length + (maxLen - 1)) / maxLen ∧
     (∀ c ∈ splitMessage ['h', 'i'], c.length ≤ maxLen) ∧
     (∀ c ∈ (splitMessage ['h', 'i']).dropLast, c.length = maxLen) ∧
     (splitMessage ['h', 'i']).flatten = ['h', 'i']) :=
  ⟨by decide, delivery_chunking ['h', 'i'] (by decide)⟩

theorem streamWithProgress_cleanup_witness :
    ExecEffect.deleteMsg 5 99 ∈
      (streamWithProgress 5 "ctx" (some 99)
        (Except.ok (PromptResult.mk (some "boom") none))).1 :=
  (streamWithProgress_cleanup 5 "ctx" 99 (Except.ok (PromptResult.mk (some "boom") none))).1

theorem video_scratch_clean_iff_witness :
    videoScratchAfter (VideoScenario.mk true FfmpegOutcome.ok 3 true) = cleanScratch ↔
      ((VideoScenario.mk true FfmpegOutcome.ok 3 true).downloadOk = false ∨
       ((VideoScenario.mk true FfmpegOutcome.ok 3 true).ffmpeg = FfmpegOutcome.ok ∧
        1 ≤ (VideoScenario.mk true FfmpegOutcome.ok 3 true).framesProduced ∧
        (VideoScenario.mk true FfmpegOutcome.ok 3 true).framesProduced ≤ 5 ∧
        (VideoScenario.mk true FfmpegOutcome.ok 3 true).backendOk = true)) :=
  video_scratch_clean_iff (VideoScenario.mk true FfmpegOutcome.ok 3 true)

theorem video_frames_capped_witness :
    (selectFrames ["frame_002.jpg", "frame_001.jpg"]).length ≤ 5 :=
  (video_frames_capped ["frame_002.jpg", "frame_001.jpg"] "" 4).1

theorem getLatestExchange_characterization_witness :
    getLatestExchange [SyncMessage.mk "user" [MsgPart.text "hi"] "u1",
        SyncMessage.mk "assistant" [MsgPart.text "yo"] "a1"] =
      (match lastIdxWith (fun m => m.role == "assistant")
          [SyncMessage.mk "user" [MsgPart.text "hi"] "u1",
           SyncMessage.mk "assistant" [MsgPart.text "yo"] "a1"] with
        | none => none
        | some a =>
            match lastIdxWith (fun m => m.role == "user")
                ([SyncMessage.mk "user" [MsgPart.text "hi"] "u1",
                  SyncMessage.mk "assistant" [MsgPart.text "yo"] "a1"].take a) with
            | none => none
            | some u => some (u, a)) :=
  (getLatestExchange_characterization [SyncMessage.mk "user" [MsgPart.text "hi"] "u1",
    SyncMessage.mk "assistant" [MsgPart.text "yo"] "a1"]).1

end OpenTelegram
